import Mathlib

/-!
Verification of the chatbot repository against its specification.

Part 1 embeds `src/chatbot/app_chatbot/views.py`, a Django view module:
the module-level engine construction and corpus training, and the three
view functions `Index`, `Specific` and `getResponse`.

Part 2 embeds the vendored `spacy_model_manager` package
(`src/env/Lib/site-packages/spacy_model_manager/lib.py` and `cli.py`):
`get_installed_model_version`, `validate_version_string` and
`get_spacy_models`.

External libraries (ChatterBot, Django, requests, pkg_resources, click)
appear as parameters or as small environment models; the repository code
itself is translated faithfully.
-/

set_option autoImplicit false

namespace Chatbot

/-- A ChatterBot engine as configured by `views.py`: the constructor
arguments (name, read_only flag, logic adapter import paths) together with
the list of corpora that have been loaded by a corpus trainer, in training
order. The matching internals of the engine are external and stay opaque. -/
structure Engine where
  name : String
  read_only : Bool
  logic_adapters : List String
  corpora_trained : List String
deriving DecidableEq, Repr

/-- The engine as constructed at line 7 of `views.py`: name chatbot,
read_only set to False, and a single logic adapter whose import_path is
chatterbot.logic.BestMatch. No corpus has been trained yet at
construction time. -/
def initialBot : Engine :=
  { name := "chatbot"
  , read_only := false
  , logic_adapters := ["chatterbot.logic.BestMatch"]
  , corpora_trained := [] }

/-- Effect of a corpus-trainer train call on the engine state: the corpus
is appended to the list of trained corpora. -/
def corpusTrain (e : Engine) (corpus : String) : Engine :=
  { e with corpora_trained := e.corpora_trained ++ [corpus] }

/-- The module-level `bot` after the module body of `views.py` has run:
constructed, then trained once with the corpus chatterbot.corpus.english. -/
def bot : Engine := corpusTrain initialBot "chatterbot.corpus.english"

/-- A ChatterBot Statement, the value returned by the engine lookup.
Only its text matters to the view code. -/
structure Statement where
  text : String
deriving DecidableEq, Repr

/-- Python str applied to a ChatterBot Statement yields its text. -/
def pyStr (s : Statement) : String := s.text

/-- Exceptions that can cross the view functions. The view code never
inspects them, so the individual constructors only name typical sources. -/
inductive PyExc where
  | templateDoesNotExist (name : String)
  | engineError (msg : String)
  | otherError (msg : String)
deriving DecidableEq, Repr

/-- A Django request as seen by the views: request.GET.get applied to a key
returns the query parameter value, or None when the key is absent. -/
structure HttpRequest where
  GET : String → Option String

/-- A Django HttpResponse: the view functions only ever set the body. -/
structure HttpResponse where
  body : String
deriving DecidableEq, Repr

/-- View `Index` (views.py line 35): returns an HttpResponse carrying the
fixed text body. It ignores the request and cannot fail, hence the
non-monadic type. -/
def Index (_request : HttpRequest) : HttpResponse :=
  HttpResponse.mk "this is my first url."

/-- View `Specific` (views.py line 38): renders the template index.html
for the request. The Django renderer is external, passed as a fallible
function from template name to rendered body; its exception is not
caught. -/
def Specific (render : String → Except PyExc String) (_request : HttpRequest) :
    Except PyExc HttpResponse :=
  match render "index.html" with
  | Except.ok page => Except.ok (HttpResponse.mk page)
  | Except.error e => Except.error e

/-- View `getResponse` (views.py lines 41-44): reads the query parameter
userMessage via request.GET.get, applies str to the value of the engine
lookup on it, and returns that text as the HttpResponse body. The engine
lookup is external and fallible; it receives the module-level `bot` and
the raw optional parameter value. Its exception is not caught. -/
def getResponse (engineGetResponse : Engine → Option String → Except PyExc Statement)
    (request : HttpRequest) : Except PyExc HttpResponse :=
  match engineGetResponse bot (request.GET "userMessage") with
  | Except.ok statement => Except.ok (HttpResponse.mk (pyStr statement))
  | Except.error e => Except.error e

/-- One event in the life of the server process. The Django module body of
`views.py` runs top to bottom when the module is imported, and the URL
dispatcher can only call a view after the import has finished, so every
process execution is the module-load events followed by handler events. -/
inductive LoadEvent where
  | constructEngine (adapters : List String)
  | trainCorpus (corpus : String)
  | handle (view : String)
deriving DecidableEq, Repr

/-- Whether an event is a corpus-training call. -/
def isTrainEvent : LoadEvent → Bool
  | LoadEvent.trainCorpus _ => true
  | _ => false

/-- Number of corpus-training calls in a trace. -/
def countTrainEvents (trace : List LoadEvent) : Nat :=
  (trace.filter isTrainEvent).length

/-- The events performed by the module body of `views.py`, in source order:
construct the engine (line 7), then train it on the English corpus
(line 32). Nothing else at module level touches the engine; the
ListTrainer block at lines 15-31 is commented out in the source. -/
def moduleLoadEvents : List LoadEvent :=
  [LoadEvent.constructEngine ["chatterbot.logic.BestMatch"],
   LoadEvent.trainCorpus "chatterbot.corpus.english"]

/-- The event trace of a whole process execution that serves the given
sequence of view invocations after module load. -/
def processTrace (views : List String) : List LoadEvent :=
  moduleLoadEvents ++ views.map LoadEvent.handle

/-- The three URL routes of the application, each mapped to one view. -/
inductive Route where
  | index
  | specific
  | response
deriving DecidableEq, Repr

/-- A routed request: which view the dispatcher selected, plus the request. -/
structure RoutedRequest where
  route : Route
  request : HttpRequest

/-- Process-wide mutable state: the ChatterBot engines alive in the
process. `views.py` creates exactly one at module level and the views
never create or destroy one. -/
structure ServerState where
  engines : List Engine
deriving DecidableEq, Repr

/-- The process state right after module load: the single trained `bot`. -/
def serverStart : ServerState := ServerState.mk [bot]

/-- Dispatch one request to its view. The views return a response (or let
an exception escape) and leave the process state as it was: no view in
`views.py` assigns to module state, constructs an engine, or trains. -/
def handleOne (engineGetResponse : Engine → Option String → Except PyExc Statement)
    (render : String → Except PyExc String)
    (s : ServerState) (req : RoutedRequest) :
    ServerState × Except PyExc HttpResponse :=
  match req.route with
  | Route.index => (s, Except.ok (Index req.request))
  | Route.specific => (s, Specific render req.request)
  | Route.response => (s, getResponse engineGetResponse req.request)

/-- Process state after serving a sequence of requests. -/
def handleAll (engineGetResponse : Engine → Option String → Except PyExc Statement)
    (render : String → Except PyExc String)
    (s : ServerState) (reqs : List RoutedRequest) : ServerState :=
  reqs.foldl (fun st r => (handleOne engineGetResponse render st r).1) s

end Chatbot

namespace SpacyModelManager

/-- The spaCy trained model names, lib.py lines 21-103. -/
def SPACY_MODEL_NAMES : List String :=
  ["ca_core_news_lg", "ca_core_news_md", "ca_core_news_sm", "ca_core_news_trf",
   "da_core_news_lg", "da_core_news_md", "da_core_news_sm", "da_core_news_trf",
   "de_core_news_lg", "de_core_news_md", "de_core_news_sm", "de_dep_news_trf",
   "de_pytt_bertbasecased_lg", "de_trf_bertbasecased_lg", "el_core_news_lg", "el_core_news_md",
   "el_core_news_sm", "en_core_web_lg", "en_core_web_md", "en_core_web_sm",
   "en_core_web_trf", "en_depent_web_md", "en_pytt_bertbaseuncased_lg", "en_pytt_distilbertbaseuncased_lg",
   "en_pytt_robertabase_lg", "en_pytt_xlnetbasecased_lg", "en_trf_bertbaseuncased_lg", "en_trf_distilbertbaseuncased_lg",
   "en_trf_robertabase_lg", "en_trf_xlnetbasecased_lg", "en_vectors_glove_md", "en_vectors_web_lg",
   "es_core_news_lg", "es_core_news_md", "es_core_news_sm", "es_core_web_md",
   "es_dep_news_trf", "fr_core_news_lg", "fr_core_news_md", "fr_core_news_sm",
   "fr_dep_news_trf", "fr_depvec_web_lg", "it_core_news_lg", "it_core_news_md",
   "it_core_news_sm", "ja_core_news_lg", "ja_core_news_md", "ja_core_news_sm",
   "ja_core_news_trf", "lt_core_news_lg", "lt_core_news_md", "lt_core_news_sm",
   "mk_core_news_lg", "mk_core_news_md", "mk_core_news_sm", "nb_core_news_lg",
   "nb_core_news_md", "nb_core_news_sm", "nl_core_news_lg", "nl_core_news_md",
   "nl_core_news_sm", "pl_core_news_lg", "pl_core_news_md", "pl_core_news_sm",
   "pt_core_news_lg", "pt_core_news_md", "pt_core_news_sm", "ro_core_news_lg",
   "ro_core_news_md", "ro_core_news_sm", "ru_core_news_lg", "ru_core_news_md",
   "ru_core_news_sm", "xx_ent_wiki_sm", "xx_sent_ud_sm", "zh_core_web_lg",
   "zh_core_web_md", "zh_core_web_sm", "zh_core_web_trf"]

/-- The error raised by pkg_resources.get_distribution when no installed
distribution carries the given name. -/
inductive PkgResourcesError where
  | distributionNotFound (name : String)
deriving DecidableEq, Repr

/-- pkg_resources.get_distribution applied to a name, then reading the
version attribute: the installed environment is a map from package name to
version string; a missing package raises DistributionNotFound. -/
def get_distribution_version (installed : String → Option String) (name : String) :
    Except PkgResourcesError String :=
  match installed name with
  | some v => Except.ok v
  | none => Except.error (PkgResourcesError.distributionNotFound name)

/-- lib.py lines 106-114: return the version of an installed package,
catching DistributionNotFound and returning None for it. -/
def get_installed_model_version (installed : String → Option String) (name : String) :
    Option String :=
  match get_distribution_version installed name with
  | Except.ok v => some v
  | Except.error (PkgResourcesError.distributionNotFound _) => none

/-- The error raised by click.BadParameter in validate_version_string. -/
inductive ClickError where
  | badParameter (value : String)
deriving DecidableEq, Repr

/-- Remove the leading run of decimal digits from a character list. -/
def dropDigits : List Char → List Char
  | [] => []
  | c :: cs => if c.isDigit then dropDigits cs else c :: cs

/-- Greedy one-or-more digits at the start of a character list: on success
return the remainder after the digit run, otherwise None. -/
def takeDigits1 : List Char → Option (List Char)
  | [] => none
  | c :: cs => if c.isDigit then some (dropDigits cs) else none

/-- The compiled pattern of cli.py line 31 applied with re.match, which
anchors at the start only: one or more digits, then at least one group of
a dot followed by one or more digits; anything may follow the match. -/
def versionRegexMatch (cs : List Char) : Bool :=
  match takeDigits1 cs with
  | none => false
  | some rest =>
    match rest with
    | [] => false
    | c :: cs2 => if c = '.' then (takeDigits1 cs2).isSome else false

/-- cli.py lines 24-37: the click callback validating a version option.
None passes through; a matching string is returned unchanged; any other
string raises click.BadParameter with the offending value. -/
def validate_version_string (value : Option String) : Except ClickError (Option String) :=
  match value with
  | none => Except.ok none
  | some v =>
    if versionRegexMatch v.toList then Except.ok (some v)
    else Except.error (ClickError.badParameter v)

/-- Specification-side reading of the pattern: the string starts with one
or more digits, a dot, and one or more digits, after which anything may
follow (so a trailing junk suffix is accepted). -/
def VersionNumStart (s : String) : Prop :=
  ∃ d1 d2 rest : List Char,
    d1 ≠ [] ∧ d2 ≠ [] ∧ (∀ c ∈ d1, c.isDigit = true) ∧ (∀ c ∈ d2, c.isDigit = true) ∧
    s.toList = d1 ++ '.' :: (d2 ++ rest)

/-- Python errors relevant to get_spacy_models: a non-ok HTTP response
raised by raise_for_status, and the ValueError raised when unpacking the
split of a tag that carries no dash. -/
inductive ReqError where
  | httpError
  | valueError
deriving DecidableEq, Repr

/-- A python dict from model name to version list: association list with
insertion order, updates in place, new keys appended at the end. -/
abbrev Releases := List (String × List String)

/-- releases.get(name, default) without the default: the value stored at
the key, if any. -/
def dictGet (d : Releases) (k : String) : Option (List String) :=
  match d with
  | [] => none
  | (k2, v) :: rest => if k2 = k then some v else dictGet rest k

/-- Assignment releases[name] = value with python dict semantics: replace
in place when the key exists, append at the end otherwise. -/
def dictSet (d : Releases) (k : String) (v : List String) : Releases :=
  match d with
  | [] => [(k, v)]
  | (k2, v2) :: rest => if k2 = k then (k2, v) :: rest else (k2, v2) :: dictSet rest k v

/-- str.split on a dash with maxsplit one, as applied to tag_name at
lib.py line 135: the part before the first dash and everything after it;
None when no dash occurs, in which case the tuple unpacking raises
ValueError. -/
def splitFirstDash : List Char → Option (List Char × List Char)
  | [] => none
  | c :: cs =>
    if c = '-' then some ([], cs)
    else
      match splitFirstDash cs with
      | some (a, b) => some (c :: a, b)
      | none => none

/-- Parse one release tag into a model name and a version string. -/
def parseTag (tag : String) : Option (String × String) :=
  (splitFirstDash tag.toList).map (fun p => (String.mk p.1, String.mk p.2))

/-- The alpha/beta filter of lib.py line 138: the version string contains
the letter a or the letter b. -/
def isPreVersion (version : String) : Bool :=
  version.toList.contains 'a' || version.toList.contains 'b'

/-- Body of the for-loop over one release (lib.py lines 134-142): parse
the tag (a dashless tag raises ValueError), skip alpha/beta versions, and
append the version to the list stored under the name. -/
def addRelease (releases : Releases) (tag : String) : Except ReqError Releases :=
  match parseTag tag with
  | none => Except.error ReqError.valueError
  | some (name, version) =>
    if isPreVersion version then Except.ok releases
    else Except.ok (dictSet releases name ((dictGet releases name).getD [] ++ [version]))

/-- Process every release of one page in order. -/
def addPage (releases : Releases) (tags : List String) : Except ReqError Releases :=
  match tags with
  | [] => Except.ok releases
  | t :: ts =>
    match addRelease releases t with
    | Except.ok r => addPage r ts
    | Except.error e => Except.error e

/-- One page fetch as the loop sees it: either a non-ok HTTP response, on
which raise_for_status raises, or the parsed list of release tag names.
The next-page link of a fetched page exists exactly when a further page
follows in the sequence; the loop breaks when it is absent. -/
abbrev PageResult := Except Unit (List String)

/-- The while-loop of lib.py lines 127-150 over the page sequence,
threading the releases dict. -/
def fetchPages (pages : List PageResult) (releases : Releases) : Except ReqError Releases :=
  match pages with
  | [] => Except.ok releases
  | p :: rest =>
    match p with
    | Except.error _ => Except.error ReqError.httpError
    | Except.ok tags =>
      match addPage releases tags with
      | Except.error e => Except.error e
      | Except.ok r => fetchPages rest r

/-- The dict built by the except-branch at lib.py line 152: every known
model name mapped to an empty version list. -/
def emptyReleases : Releases := SPACY_MODEL_NAMES.map (fun n => (n, []))

/-- lib.py lines 117-153: run the pagination loop from an empty dict and
catch requests.HTTPError, replacing everything accumulated so far with the
all-names-to-empty-lists dict. The ValueError of a dashless tag is not
caught. -/
def get_spacy_models (pages : List PageResult) : Except ReqError Releases :=
  match fetchPages pages [] with
  | Except.error ReqError.httpError => Except.ok emptyReleases
  | r => r

/-- Specification-side step: the effect of one parseable tag on the dict. -/
def specStep (rel : Releases) (tag : String) : Releases :=
  match parseTag tag with
  | none => rel
  | some (name, version) =>
    if isPreVersion version then rel
    else dictSet rel name ((dictGet rel name).getD [] ++ [version])

/-- Specification-side accumulation over a flat tag sequence. -/
def collectReleases (tags : List String) : Releases := tags.foldl specStep []

/-- The tag list a fetched page contributes (a failed page contributes
nothing because the loop never reads it). -/
def okTags : PageResult → List String
  | Except.ok tags => tags
  | Except.error _ => []

/-- Whether a page fetch came back as a non-ok HTTP response. -/
def pageFailed : PageResult → Bool
  | Except.error _ => true
  | Except.ok _ => false

/-- Whether a tag splits on a dash. -/
def tagParses (tag : String) : Bool := (parseTag tag).isSome

/-- Whether every tag of every fetched page splits on a dash. -/
def pagesParseable (pages : List PageResult) : Bool :=
  pages.all (fun p => (okTags p).all tagParses)

/-- Invariant of the releases dict: every stored version passed the
alpha/beta filter. -/
def NoPreStored (rel : Releases) : Prop :=
  ∀ entry ∈ rel, ∀ v ∈ entry.2, isPreVersion v = false

end SpacyModelManager

namespace Chatbot

/-- No view changes the set of live engines. -/
lemma handleOne_fst (engineGetResponse : Engine → Option String → Except PyExc Statement)
    (render : String → Except PyExc String)
    (s : ServerState) (req : RoutedRequest) :
    (handleOne engineGetResponse render s req).1 = s := by
  rcases req with ⟨route, request⟩
  cases route <;> rfl

/-- Serving any request sequence leaves the process state unchanged. -/
lemma handleAll_const (engineGetResponse : Engine → Option String → Except PyExc Statement)
    (render : String → Except PyExc String)
    (s : ServerState) (reqs : List RoutedRequest) :
    handleAll engineGetResponse render s reqs = s := by
  induction reqs generalizing s with
  | nil => rfl
  | cons a l ih =>
    have hstep : handleAll engineGetResponse render s (a :: l) =
        handleAll engineGetResponse render (handleOne engineGetResponse render s a).1 l := rfl
    rw [hstep, handleOne_fst]
    exact ih s

/-- Any handler event in a process trace sits strictly after the two
module-load events. -/
lemma trace_handle_index (views : List String) (i : Nat) (v : String)
    (h : (processTrace views)[i]? = some (LoadEvent.handle v)) : 2 ≤ i := by
  match i with
  | 0 => simp [processTrace, moduleLoadEvents] at h
  | 1 => simp [processTrace, moduleLoadEvents] at h
  | (n + 2) => omega

/-- The only corpus-training event in any process trace is the one at
index 1, inside the module-load part. -/
lemma trace_train_index (views : List String) (j : Nat) (c : String)
    (h : (processTrace views)[j]? = some (LoadEvent.trainCorpus c)) : j = 1 := by
  match j with
  | 0 => simp [processTrace, moduleLoadEvents] at h
  | 1 => rfl
  | (n + 2) =>
    have h2 : (views.map LoadEvent.handle)[n]? = some (LoadEvent.trainCorpus c) := by
      simp only [processTrace, moduleLoadEvents, List.cons_append, List.nil_append,
        List.getElem?_cons_succ] at h
      exact h
    rw [List.getElem?_map] at h2
    rcases hw : views[n]? with _ | w <;> rw [hw] at h2 <;> simp at h2

/-- Counting training events distributes over trace concatenation. -/
lemma countTrain_append (a b : List LoadEvent) :
    countTrainEvents (a ++ b) = countTrainEvents a + countTrainEvents b := by
  simp [countTrainEvents, List.filter_append]

/-- Request handling contributes no training event to the trace. -/
lemma countTrain_handles (views : List String) :
    countTrainEvents (views.map LoadEvent.handle) = 0 := by
  induction views with
  | nil => rfl
  | cons a l ih =>
    show countTrainEvents (l.map LoadEvent.handle) = 0
    exact ih

/-- C1: `getResponse` returns, as the whole HTTP body, exactly the
str-conversion of the engine reply to the value of the userMessage query
parameter; an absent parameter is forwarded to the engine as the
empty/undefined value None, and an engine exception passes through. -/
theorem getResponse_forwards_engine_reply
    (engineGetResponse : Engine → Option String → Except PyExc Statement)
    (request : HttpRequest) :
    getResponse engineGetResponse request =
      Except.map (fun st => HttpResponse.mk (pyStr st))
        (engineGetResponse bot (request.GET "userMessage")) := by
  unfold getResponse
  cases engineGetResponse bot (request.GET "userMessage") <;> rfl

/-- C5: `Index` returns the literal body saying this is my first url, with
a trailing period, for every request; its type shows it reads nothing else
and cannot fail. -/
theorem index_returns_fixed_string (request : HttpRequest) :
    Index request = HttpResponse.mk "this is my first url." := rfl

/-- C2: the trainer bootstrap runs exactly once at module load: the module
body constructs the engine with the single BestMatch strategy and then
performs exactly one training call, on the English corpus; in every process
trace the handler events come only after all module-load events, and the
resulting `bot` carries the single adapter and the single trained corpus. -/
theorem trainer_bootstrap_runs_once :
    moduleLoadEvents =
      [LoadEvent.constructEngine ["chatterbot.logic.BestMatch"],
       LoadEvent.trainCorpus "chatterbot.corpus.english"] ∧
    countTrainEvents moduleLoadEvents = 1 ∧
    (∀ (views : List String) (i : Nat) (v : String),
        (processTrace views)[i]? = some (LoadEvent.handle v) →
        moduleLoadEvents.length ≤ i) ∧
    bot.logic_adapters = ["chatterbot.logic.BestMatch"] ∧
    bot.corpora_trained = ["chatterbot.corpus.english"] := by
  refine ⟨rfl, rfl, ?_, rfl, rfl⟩
  intro views i v h
  have h2 := trace_handle_index views i v h
  simpa [moduleLoadEvents] using h2

/-- Witness for C2 at a concrete process trace serving one request. -/
theorem trainer_bootstrap_runs_once_witness :
    (processTrace ["getResponse"])[2]? = some (LoadEvent.handle "getResponse") ∧
    moduleLoadEvents.length ≤ 2 := by
  refine ⟨rfl, ?_⟩
  exact trainer_bootstrap_runs_once.2.2.1 ["getResponse"] 2 "getResponse" rfl

/-- C3: in every process trace every training event precedes every handler
event, so the engine is trained before the first lookup; the process state
holds exactly the one module-level engine, request handling never changes
that state, and `getResponse` performs its lookup on that shared trained
engine. -/
theorem engine_trained_before_lookup_and_shared :
    (∀ (views : List String) (i j : Nat) (v c : String),
        (processTrace views)[i]? = some (LoadEvent.handle v) →
        (processTrace views)[j]? = some (LoadEvent.trainCorpus c) → j < i) ∧
    (∀ engineGetResponse render reqs,
        handleAll engineGetResponse render serverStart reqs = serverStart) ∧
    serverStart.engines = [bot] ∧
    bot.corpora_trained = ["chatterbot.corpus.english"] ∧
    (∀ engineGetResponse request,
        getResponse engineGetResponse request =
          Except.map (fun st => HttpResponse.mk (pyStr st))
            (engineGetResponse bot (request.GET "userMessage"))) := by
  refine ⟨?_, ?_, rfl, rfl, ?_⟩
  · intro views i j v c hi hj
    have h1 := trace_handle_index views i v hi
    have h2 := trace_train_index views j c hj
    omega
  · intro engineGetResponse render reqs
    exact handleAll_const engineGetResponse render serverStart reqs
  · intro engineGetResponse request
    exact getResponse_forwards_engine_reply engineGetResponse request

/-- Witness for C3 at a concrete trace and a concrete request sequence. -/
theorem engine_trained_before_lookup_and_shared_witness :
    (1 : Nat) < 2 ∧
    handleAll (fun _ _ => Except.ok (Statement.mk "hello"))
      (fun _ => Except.ok "page") serverStart
      [RoutedRequest.mk Route.response (HttpRequest.mk (fun _ => none))] = serverStart := by
  constructor
  · exact engine_trained_before_lookup_and_shared.1 ["getResponse"] 2 1 "getResponse"
      "chatterbot.corpus.english" rfl rfl
  · exact engine_trained_before_lookup_and_shared.2.1 _ _ _

/-- C4: after startup training no request-handling operation touches the
trained state: every process trace contains exactly one training event,
handler events are never training events, and after serving any request
sequence the single engine still holds exactly the English corpus. -/
theorem request_handling_preserves_trained_state :
    (∀ (views : List String), countTrainEvents (processTrace views) = 1) ∧
    (∀ (views : List String) (e : LoadEvent),
        e ∈ views.map LoadEvent.handle → isTrainEvent e = false) ∧
    (∀ engineGetResponse render reqs,
        (handleAll engineGetResponse render serverStart reqs).engines.map
          Engine.corpora_trained = [["chatterbot.corpus.english"]]) := by
  refine ⟨?_, ?_, ?_⟩
  · intro views
    rw [processTrace, countTrain_append, countTrain_handles]
    rfl
  · intro views e he
    rcases List.mem_map.mp he with ⟨v, _, rfl⟩
    rfl
  · intro engineGetResponse render reqs
    rw [handleAll_const]
    rfl

/-- Witness for C4 at a concrete handler event. -/
theorem request_handling_preserves_trained_state_witness :
    LoadEvent.handle "Index" ∈ (["Index"].map LoadEvent.handle) ∧
    isTrainEvent (LoadEvent.handle "Index") = false := by
  refine ⟨?_, ?_⟩
  · simp
  · exact request_handling_preserves_trained_state.2.1 ["Index"]
      (LoadEvent.handle "Index") (by simp)

/-- C6: the views construct no error handling: a renderer exception leaves
`Specific` with the very same exception, and an engine exception leaves
`getResponse` with the very same exception; no view catches, retries, or
builds a substitute error body (and `Index`, being total with a fixed
body, cannot fail at all). -/
theorem handlers_propagate_exceptions
    (engineGetResponse : Engine → Option String → Except PyExc Statement)
    (render : String → Except PyExc String)
    (request : HttpRequest) (e : PyExc) :
    (render "index.html" = Except.error e →
        Specific render request = Except.error e) ∧
    (engineGetResponse bot (request.GET "userMessage") = Except.error e →
        getResponse engineGetResponse request = Except.error e) := by
  constructor
  · intro h
    unfold Specific
    rw [h]
  · intro h
    unfold getResponse
    rw [h]

/-- Witness for C6 with a failing renderer and a failing engine. -/
theorem handlers_propagate_exceptions_witness :
    Specific (fun _ => Except.error (PyExc.templateDoesNotExist "index.html"))
        (HttpRequest.mk (fun _ => none)) =
      Except.error (PyExc.templateDoesNotExist "index.html") ∧
    getResponse (fun _ _ => Except.error (PyExc.engineError "boom"))
        (HttpRequest.mk (fun _ => none)) =
      Except.error (PyExc.engineError "boom") := by
  constructor
  · exact (handlers_propagate_exceptions (fun _ _ => Except.ok (Statement.mk ""))
      (fun _ => Except.error (PyExc.templateDoesNotExist "index.html"))
      (HttpRequest.mk (fun _ => none)) (PyExc.templateDoesNotExist "index.html")).1 rfl
  · exact (handlers_propagate_exceptions (fun _ _ => Except.error (PyExc.engineError "boom"))
      (fun _ => Except.ok "page")
      (HttpRequest.mk (fun _ => none)) (PyExc.engineError "boom")).2 rfl

/-- C7: when the userMessage parameter equals hi and the (external) trained
engine produces a reply whose text is non-empty, `getResponse` returns
exactly that text as the body, and the body is non-empty. The reply text
itself is owned by the external engine, so its non-emptiness enters as a
hypothesis on the engine. -/
theorem getResponse_hi_returns_nonempty
    (engineGetResponse : Engine → Option String → Except PyExc Statement)
    (request : HttpRequest) (reply : Statement)
    (hparam : request.GET "userMessage" = some "hi")
    (hreply : engineGetResponse bot (some "hi") = Except.ok reply)
    (hne : pyStr reply ≠ "") :
    getResponse engineGetResponse request = Except.ok (HttpResponse.mk (pyStr reply)) ∧
    pyStr reply ≠ "" := by
  constructor
  · unfold getResponse
    rw [hparam, hreply]
  · exact hne

/-- Witness for C7 with a concrete request whose userMessage equals hi and
a concrete engine reply. -/
theorem getResponse_hi_returns_nonempty_witness :
    getResponse (fun _ _ => Except.ok (Statement.mk "hi, there"))
        (HttpRequest.mk (fun k => if k = "userMessage" then some "hi" else none)) =
      Except.ok (HttpResponse.mk "hi, there") ∧
    ("hi, there" : String) ≠ "" := by
  exact getResponse_hi_returns_nonempty
    (fun _ _ => Except.ok (Statement.mk "hi, there"))
    (HttpRequest.mk (fun k => if k = "userMessage" then some "hi" else none))
    (Statement.mk "hi, there") rfl rfl (by decide)

end Chatbot

namespace SpacyModelManager

/-- C8: get_installed_model_version never raises: it equals the installed
environment itself, returning the version string of an installed package
and None exactly when the distribution is not found, the
DistributionNotFound exception being caught inside. -/
theorem get_installed_model_version_total (installed : String → Option String)
    (name : String) :
    get_installed_model_version installed name = installed name := by
  unfold get_installed_model_version get_distribution_version
  cases installed name <;> rfl

/-- Stripping the leading digits splits off an all-digit front segment. -/
lemma dropDigits_decomp (cs : List Char) :
    ∃ d, (∀ c ∈ d, c.isDigit = true) ∧ cs = d ++ dropDigits cs := by
  induction cs with
  | nil => exact ⟨[], by simp, rfl⟩
  | cons c cs ih =>
    by_cases hc : c.isDigit = true
    · rcases ih with ⟨d, hd, hcs⟩
      refine ⟨c :: d, ?_, ?_⟩
      · intro x hx
        rcases List.mem_cons.mp hx with hx1 | hx2
        · rw [hx1]; exact hc
        · exact hd x hx2
      · have hdrop : dropDigits (c :: cs) = dropDigits cs := by
          simp [dropDigits, hc]
        rw [hdrop, List.cons_append]
        exact congrArg (c :: ·) hcs
    · refine ⟨[], by simp, ?_⟩
      have hdrop : dropDigits (c :: cs) = c :: cs := by
        simp [dropDigits, hc]
      rw [hdrop, List.nil_append]

/-- A successful one-or-more-digit parse splits off a non-empty all-digit
front segment. -/
lemma takeDigits1_decomp (cs r : List Char) (h : takeDigits1 cs = some r) :
    ∃ d, d ≠ [] ∧ (∀ c ∈ d, c.isDigit = true) ∧ cs = d ++ r := by
  match cs with
  | [] => simp [takeDigits1] at h
  | c :: cs2 =>
    by_cases hc : c.isDigit = true
    · simp only [takeDigits1, hc, if_true] at h
      have hr : dropDigits cs2 = r := Option.some.inj h
      rcases dropDigits_decomp cs2 with ⟨d, hd, hcs⟩
      refine ⟨c :: d, by simp, ?_, ?_⟩
      · intro x hx
        rcases List.mem_cons.mp hx with hx1 | hx2
        · rw [hx1]; exact hc
        · exact hd x hx2
      · rw [List.cons_append, ← hr]
        exact congrArg (c :: ·) hcs
    · simp [takeDigits1, hc] at h

/-- Leading digits fall away before a dot. -/
lemma dropDigits_append_dot (d t : List Char) (hd : ∀ c ∈ d, c.isDigit = true) :
    dropDigits (d ++ '.' :: t) = '.' :: t := by
  induction d with
  | nil =>
    have hdot : ('.' : Char).isDigit = false := by decide
    simp [dropDigits, hdot]
  | cons c d ih =>
    have hc := hd c (List.mem_cons_self c d)
    have hrest : ∀ x ∈ d, x.isDigit = true := fun x hx => hd x (List.mem_cons_of_mem c hx)
    simp only [List.cons_append, dropDigits, hc, if_true]
    exact ih hrest

/-- The digit parser consumes exactly an all-digit segment before a dot. -/
lemma takeDigits1_append_dot (d t : List Char) (hne : d ≠ [])
    (hd : ∀ c ∈ d, c.isDigit = true) :
    takeDigits1 (d ++ '.' :: t) = some ('.' :: t) := by
  match d with
  | [] => exact absurd rfl hne
  | c :: d2 =>
    have hc := hd c (List.mem_cons_self c d2)
    have hrest : ∀ x ∈ d2, x.isDigit = true := fun x hx => hd x (List.mem_cons_of_mem c hx)
    simp only [List.cons_append, takeDigits1, hc, if_true]
    rw [dropDigits_append_dot d2 t hrest]

/-- The digit parser succeeds on any list with a non-empty all-digit
front segment. -/
lemma takeDigits1_isSome (d r : List Char) (hne : d ≠ [])
    (hd : ∀ c ∈ d, c.isDigit = true) :
    (takeDigits1 (d ++ r)).isSome = true := by
  match d with
  | [] => exact absurd rfl hne
  | c :: d2 =>
    have hc := hd c (List.mem_cons_self c d2)
    simp [takeDigits1, hc]

/-- The translated re.match test succeeds exactly on strings that start
with digits, a dot, and digits. -/
lemma versionRegexMatch_iff (s : String) :
    versionRegexMatch s.toList = true ↔ VersionNumStart s := by
  constructor
  · intro h
    unfold versionRegexMatch at h
    cases h1 : takeDigits1 s.toList with
    | none => rw [h1] at h; exact absurd h (by simp)
    | some rest =>
      rw [h1] at h
      cases rest with
      | nil => exact absurd h (by simp)
      | cons c cs2 =>
        dsimp only at h
        by_cases hc : c = '.'
        · rw [if_pos hc] at h
          subst hc
          rcases Option.isSome_iff_exists.mp h with ⟨r2, h2⟩
          rcases takeDigits1_decomp s.toList ('.' :: cs2) h1 with ⟨d1, hne1, hd1, hs1⟩
          rcases takeDigits1_decomp cs2 r2 h2 with ⟨d2, hne2, hd2, hs2⟩
          exact ⟨d1, d2, r2, hne1, hne2, hd1, hd2, by rw [hs1, hs2]⟩
        · rw [if_neg hc] at h
          exact absurd h (by simp)
  · rintro ⟨d1, d2, rest, hne1, hne2, hd1, hd2, hs⟩
    unfold versionRegexMatch
    rw [hs, takeDigits1_append_dot d1 (d2 ++ rest) hne1 hd1]
    dsimp only
    rw [if_pos rfl]
    exact takeDigits1_isSome d2 rest hne2 hd2

/-- C9: validate_version_string passes None through unchanged, returns any
string starting with digits-dot-digits unchanged even when junk follows
(the pattern is anchored only at the start), and raises click.BadParameter
carrying the offending value on every other string. -/
theorem validate_version_string_spec :
    validate_version_string none = Except.ok none ∧
    (∀ s : String, VersionNumStart s →
        validate_version_string (some s) = Except.ok (some s)) ∧
    (∀ s : String, ¬ VersionNumStart s →
        validate_version_string (some s) = Except.error (ClickError.badParameter s)) ∧
    validate_version_string (some "1.2junk") = Except.ok (some "1.2junk") := by
  refine ⟨rfl, ?_, ?_, by rfl⟩
  · intro s hs
    unfold validate_version_string
    dsimp only
    rw [if_pos ((versionRegexMatch_iff s).mpr hs)]
  · intro s hs
    unfold validate_version_string
    dsimp only
    rw [if_neg (fun hb => hs ((versionRegexMatch_iff s).mp hb))]

/-- Witness for C9 at one accepted and one rejected concrete string. -/
theorem validate_version_string_spec_witness :
    validate_version_string (some "1.2") = Except.ok (some "1.2") ∧
    validate_version_string (some "junk") = Except.error (ClickError.badParameter "junk") := by
  constructor
  · exact validate_version_string_spec.2.1 "1.2"
      ((versionRegexMatch_iff "1.2").mp (by decide))
  · exact validate_version_string_spec.2.2.1 "junk"
      (fun hv => absurd ((versionRegexMatch_iff "junk").mpr hv) (by decide))

/-- Processing a parseable tag is the total specification step. -/
lemma addRelease_parses (rel : Releases) (t : String) (h : tagParses t = true) :
    addRelease rel t = Except.ok (specStep rel t) := by
  unfold tagParses at h
  cases hp : parseTag t with
  | none => rw [hp] at h; simp at h
  | some nv =>
    rcases nv with ⟨name, version⟩
    unfold addRelease specStep
    rw [hp]
    dsimp only
    by_cases hpre : isPreVersion version = true <;> simp [hpre]

/-- Processing a page of parseable tags folds the specification step. -/
lemma addPage_parses (tags : List String) (rel : Releases)
    (h : ∀ t ∈ tags, tagParses t = true) :
    addPage rel tags = Except.ok (tags.foldl specStep rel) := by
  induction tags generalizing rel with
  | nil => rfl
  | cons t ts ih =>
    have ht := h t (List.mem_cons_self t ts)
    have hts : ∀ x ∈ ts, tagParses x = true := fun x hx => h x (List.mem_cons_of_mem t hx)
    unfold addPage
    rw [addRelease_parses rel t ht]
    exact ih (specStep rel t) hts

/-- The pagination loop on parseable pages: the first failed fetch raises
the HTTP error, and with no failure the loop folds the specification step
over the concatenation of all page tag lists. -/
lemma fetchPages_parses (pages : List PageResult) (rel : Releases)
    (h : pagesParseable pages = true) :
    fetchPages pages rel =
      if pages.any pageFailed then Except.error ReqError.httpError
      else Except.ok (((pages.map okTags).flatten).foldl specStep rel) := by
  induction pages generalizing rel with
  | nil => rfl
  | cons p ps ih =>
    have hall := List.all_eq_true.mp h
    have hp := hall p (List.mem_cons_self p ps)
    have hps : pagesParseable ps = true :=
      List.all_eq_true.mpr (fun x hx => hall x (List.mem_cons_of_mem p hx))
    cases p with
    | error u =>
      unfold fetchPages
      have : (Except.error u :: ps).any pageFailed = true := by
        simp [pageFailed]
      rw [if_pos this]
    | ok tags =>
      have htags : ∀ t ∈ tags, tagParses t = true := by
        intro t ht
        have := List.all_eq_true.mp hp
        exact this t ht
      unfold fetchPages
      dsimp only
      rw [addPage_parses tags rel htags]
      dsimp only
      rw [ih (tags.foldl specStep rel) hps]
      have hany : (Except.ok tags :: ps).any pageFailed = ps.any pageFailed := by
        simp [pageFailed]
      rw [hany]
      by_cases hfail : ps.any pageFailed = true
      · rw [if_pos hfail, if_pos hfail]
      · rw [if_neg hfail, if_neg hfail]
        have hjoin : ((Except.ok tags :: ps).map okTags).flatten =
            tags ++ (ps.map okTags).flatten := by
          simp [okTags]
        rw [hjoin, List.foldl_append]

/-- Membership after a python dict assignment: the entry either carries
the assigned value or was already present. -/
lemma dictSet_mem (rel : Releases) (k : String) (v : List String)
    (e : String × List String) (h : e ∈ dictSet rel k v) : e.2 = v ∨ e ∈ rel := by
  induction rel with
  | nil =>
    simp [dictSet] at h
    left
    rw [h]
  | cons e2 rest ih =>
    rcases e2 with ⟨k2, v2⟩
    by_cases hk : k2 = k
    · rw [show dictSet ((k2, v2) :: rest) k v = (k2, v) :: rest from by
        simp [dictSet, hk]] at h
      rcases List.mem_cons.mp h with h1 | h2
      · left; rw [h1]
      · right; exact List.mem_cons_of_mem _ h2
    · rw [show dictSet ((k2, v2) :: rest) k v = (k2, v2) :: dictSet rest k v from by
        simp [dictSet, hk]] at h
      rcases List.mem_cons.mp h with h1 | h2
      · right; rw [h1]; exact List.mem_cons_self _ _
      · rcases ih h2 with h3 | h4
        · left; exact h3
        · right; exact List.mem_cons_of_mem _ h4

/-- A value read back from an invariant-respecting dict holds no
alpha/beta version. -/
lemma dictGet_noPre (rel : Releases) (k : String) (vs : List String)
    (hinv : NoPreStored rel) (h : dictGet rel k = some vs) :
    ∀ v ∈ vs, isPreVersion v = false := by
  induction rel with
  | nil => simp [dictGet] at h
  | cons e rest ih =>
    rcases e with ⟨k2, v2⟩
    by_cases hk : k2 = k
    · have hv2 : v2 = vs := by
        rw [show dictGet ((k2, v2) :: rest) k = some v2 from by simp [dictGet, hk]] at h
        exact Option.some.inj h
      intro v hv
      exact hinv (k2, v2) (List.mem_cons_self _ _) v (by rw [hv2]; exact hv)
    · have hrest : dictGet rest k = some vs := by
        rw [show dictGet ((k2, v2) :: rest) k = dictGet rest k from by
          simp [dictGet, hk]] at h
        exact h
      exact ih (fun e he => hinv e (List.mem_cons_of_mem _ he)) hrest

/-- One successful release step preserves the no-alpha/beta invariant. -/
lemma addRelease_noPre (rel r : Releases) (t : String)
    (hinv : NoPreStored rel) (h : addRelease rel t = Except.ok r) : NoPreStored r := by
  unfold addRelease at h
  cases hp : parseTag t with
  | none => rw [hp] at h; exact absurd h (by simp)
  | some nv =>
    rcases nv with ⟨name, version⟩
    rw [hp] at h
    dsimp only at h
    by_cases hpre : isPreVersion version = true
    · rw [if_pos hpre] at h
      rw [← Except.ok.inj h]
      exact hinv
    · rw [if_neg hpre] at h
      rw [← Except.ok.inj h]
      intro e he v hv
      rcases dictSet_mem rel name ((dictGet rel name).getD [] ++ [version]) e he with h1 | h2
      · rw [h1] at hv
        rcases List.mem_append.mp hv with hv1 | hv2
        · cases hg : dictGet rel name with
          | none => rw [hg] at hv1; simp at hv1
          | some vs =>
            rw [hg] at hv1
            exact dictGet_noPre rel name vs hinv hg v hv1
        · rw [List.mem_singleton.mp hv2]
          exact Bool.not_eq_true _ |>.mp hpre
      · exact hinv e h2 v hv

/-- A successful page step preserves the no-alpha/beta invariant. -/
lemma addPage_noPre (tags : List String) (rel r : Releases)
    (hinv : NoPreStored rel) (h : addPage rel tags = Except.ok r) : NoPreStored r := by
  induction tags generalizing rel with
  | nil =>
    rw [← Except.ok.inj h]
    exact hinv
  | cons t ts ih =>
    unfold addPage at h
    cases ha : addRelease rel t with
    | error e => rw [ha] at h; exact absurd h (by simp)
    | ok r2 =>
      rw [ha] at h
      dsimp only at h
      exact ih r2 (addRelease_noPre rel r2 t hinv ha) h

/-- The whole pagination loop preserves the no-alpha/beta invariant. -/
lemma fetchPages_noPre (pages : List PageResult) (rel r : Releases)
    (hinv : NoPreStored rel) (h : fetchPages pages rel = Except.ok r) : NoPreStored r := by
  induction pages generalizing rel with
  | nil =>
    rw [← Except.ok.inj h]
    exact hinv
  | cons p ps ih =>
    unfold fetchPages at h
    cases p with
    | error u => exact absurd h (by simp)
    | ok tags =>
      dsimp only at h
      cases ha : addPage rel tags with
      | error e => rw [ha] at h; exact absurd h (by simp)
      | ok r2 =>
        rw [ha] at h
        dsimp only at h
        exact ih r2 (addPage_noPre tags rel r2 hinv ha) h

/-- The empty dict respects the invariant. -/
lemma noPre_nil : NoPreStored [] := by
  intro e he
  exact absurd he (List.not_mem_nil e)

/-- The all-names-to-empty-lists dict respects the invariant. -/
lemma emptyReleases_noPre : NoPreStored emptyReleases := by
  intro e he v hv
  rcases List.mem_map.mp he with ⟨n, _, he2⟩
  rw [← he2] at hv
  exact absurd hv (List.not_mem_nil v)

/-- C10: get_spacy_models never lets the HTTP error escape; when every
fetched tag carries a dash, a failing page yields the dict mapping every
known model name to an empty list, all earlier accumulation discarded,
while an all-ok page sequence yields exactly the fold of the parsed
name-version pairs; and every version list a successful call returns
excludes versions containing the letter a or the letter b. -/
theorem get_spacy_models_error_handling :
    (∀ pages : List PageResult,
        get_spacy_models pages ≠ Except.error ReqError.httpError) ∧
    (∀ pages : List PageResult, pagesParseable pages = true →
        get_spacy_models pages =
          Except.ok (if pages.any pageFailed then emptyReleases
                     else collectReleases ((pages.map okTags).flatten))) ∧
    (∀ (pages : List PageResult) (rel : Releases),
        get_spacy_models pages = Except.ok rel → NoPreStored rel) := by
  refine ⟨?_, ?_, ?_⟩
  · intro pages
    unfold get_spacy_models
    cases hf : fetchPages pages [] with
    | ok r => simp
    | error e => cases e <;> simp
  · intro pages hp
    unfold get_spacy_models
    rw [fetchPages_parses pages [] hp]
    by_cases hfail : pages.any pageFailed = true
    · rw [if_pos hfail, if_pos hfail]
    · rw [if_neg hfail, if_neg hfail]
      rfl
  · intro pages rel h
    unfold get_spacy_models at h
    cases hf : fetchPages pages [] with
    | ok r =>
      rw [hf] at h
      dsimp only at h
      rw [← Except.ok.inj h]
      exact fetchPages_noPre pages [] r noPre_nil hf
    | error e =>
      cases e with
      | httpError =>
        rw [hf] at h
        dsimp only at h
        rw [← Except.ok.inj h]
        exact emptyReleases_noPre
      | valueError =>
        rw [hf] at h
        exact absurd h (by simp)

/-- Witness for C10 on a concrete all-ok page sequence with a repeated
model name. -/
theorem get_spacy_models_error_handling_witness :
    get_spacy_models [Except.ok ["en_core_web_sm-3.7.1", "en_core_web_sm-3.8.0"]] =
      Except.ok [("en_core_web_sm", ["3.7.1", "3.8.0"])] ∧
    isPreVersion "3.7.1" = false := by
  have h1 : get_spacy_models [Except.ok ["en_core_web_sm-3.7.1", "en_core_web_sm-3.8.0"]] =
      Except.ok [("en_core_web_sm", ["3.7.1", "3.8.0"])] := by
    rw [get_spacy_models_error_handling.2.1
      [Except.ok ["en_core_web_sm-3.7.1", "en_core_web_sm-3.8.0"]] (by decide)]
    rfl
  refine ⟨h1, ?_⟩
  exact get_spacy_models_error_handling.2.2
    [Except.ok ["en_core_web_sm-3.7.1", "en_core_web_sm-3.8.0"]]
    [("en_core_web_sm", ["3.7.1", "3.8.0"])] h1
    ("en_core_web_sm", ["3.7.1", "3.8.0"]) (by simp) "3.7.1" (by simp)

end SpacyModelManager
